import Mathlib

/-!
Verification of `src/add-to-project.ts` (the `addToProject` GitHub-action core).

The TypeScript source is shallowly embedded below. Remote GraphQL responses
are inputs (the `Remote` structure records what each call would return),
and the run is modelled as a pure function returning the terminal result
together with the ordered list of remote calls issued and the sequence of
`setOutput('itemId', _)` values.
-/

namespace AddToProject

/-- Configuration inputs read via `core.getInput` (lines 78-89).
`core.getInput` yields the empty string for an absent optional input. -/
structure Config where
  projectUrl : String
  fieldName : String
  fieldOptionName : String
  labeledInput : String
  labelOperatorInput : String
deriving Repr, DecidableEq

/-- The triggering issue / pull request payload fields the code reads:
`labels` (names), `node_id`, `html_url` (lines 93-94, 152, 198). -/
structure Issue where
  labels : List String
  node_id : Option String
  html_url : Option String
deriving Repr, DecidableEq

/-- The action trigger context: `payload.issue ?? payload.pull_request`
and `payload.repository?.owner.login` (lines 93-95). -/
structure Context where
  issue : Option Issue
  repoOwnerLogin : Option String
deriving Repr, DecidableEq

/-- `projectV2: { id }` inside the project-id lookup response (lines 9-21). -/
structure ProjectV2Ref where
  id : String
deriving Repr, DecidableEq

/-- The value at the `organization` / `user` key of the lookup response.
`projectV2` is declared non-nullable in the TS interface, but the GraphQL
schema can return `null` there at runtime; `none` models that JSON null. -/
structure OwnerProject where
  projectV2 : Option ProjectV2Ref
deriving Repr, DecidableEq

/-- `ProjectNodeIDResponse` (lines 9-21): both keys optional. -/
structure ProjectNodeIDResponse where
  organization : Option OwnerProject
  user : Option OwnerProject
deriving Repr, DecidableEq

/-- One single-select field option `{id, name}` (lines 47-59). -/
structure FieldOption where
  id : String
  name : String
deriving Repr, DecidableEq

/-- `node.field` of the field-and-options query response (lines 47-59). -/
structure SelectField where
  id : String
  options : List FieldOption
deriving Repr, DecidableEq

/-- One iteration `{startDate, id}` (lines 61-75). -/
structure Iteration where
  startDate : String
  id : String
deriving Repr, DecidableEq

/-- `node.field` of the iteration query response (lines 61-75). -/
structure IterationField where
  id : String
  iterations : List Iteration
deriving Repr, DecidableEq

/-- The environment: what each remote GraphQL call would return, in the
order the code issues them. -/
structure Remote where
  idResp : ProjectNodeIDResponse
  addItemId : String
  draftItemId : String
  fieldResp : SelectField
  updateSelectItemId : String
  iterationField : IterationField
  updateIterationItemId : String
deriving Repr, DecidableEq

/-- A remote GraphQL call, queries and mutations alike, with the exact
variables the code passes. -/
inductive RemoteCall where
  | getProject (ownerTypeQuery : String) (projectOwnerName : Option String) (projectNumber : Nat)
  | addItemById (projectId : Option String) (contentId : Option String)
  | addDraftIssue (projectId : Option String) (title : Option String)
  | getField (projectId : Option String) (fieldName : String)
  | updateSingleSelect (projectId : Option String) (itemId : String) (fieldId : String) (fieldOption : Option String)
  | getIteration (projectId : Option String)
  | updateIteration (projectId : Option String) (itemId : String) (fieldId : String) (iterationId : String)
deriving Repr, DecidableEq

/-- Terminal state of a run: label-filter skip (normal return), a thrown
error, or normal completion. -/
inductive RunResult where
  | skipped
  | failed (msg : String)
  | done
deriving Repr, DecidableEq

/-- Observable outcome of a run: terminal result, remote calls issued in
order, and the successive `setOutput('itemId', _)` values. -/
structure RunOutcome where
  result : RunResult
  calls : List RemoteCall
  outputs : List String
deriving Repr, DecidableEq

/-- JS whitespace as removed by `String.prototype.trim` (the ASCII
whitespace characters; the full JS set also has Unicode spaces, which no
claim depends on). -/
def jsIsSpace (c : Char) : Bool :=
  c = ' ' || c = '\t' || c = '\n' || c = '\r' || c = '\x0b' || c = '\x0c'

/-- JS `String.prototype.trim`: strip leading and trailing whitespace. -/
def jsTrim (s : String) : String :=
  String.mk (((s.data.dropWhile jsIsSpace).reverse.dropWhile jsIsSpace).reverse)

/-- JS `String.prototype.toLowerCase` on one character (ASCII range; the
full Unicode mapping is irrelevant to the claims). -/
def jsCharLower (c : Char) : Char :=
  if 'A' ≤ c ∧ c ≤ 'Z' then Char.ofNat (c.toNat + 32) else c

/-- JS `String.prototype.toLowerCase` / `toLocaleLowerCase`. -/
def jsToLower (s : String) : String :=
  String.mk (s.data.map jsCharLower)

/-- Helper for `jsSplitComma`: accumulates the current segment reversed. -/
def splitCommaAux : List Char → List Char → List String
  | [], acc => [String.mk acc.reverse]
  | c :: cs, acc =>
    if c = ',' then String.mk acc.reverse :: splitCommaAux cs []
    else splitCommaAux cs (c :: acc)

/-- JS `String.prototype.split(',')`: in particular `''.split(',')` is
`['']`. -/
def jsSplitComma (s : String) : List String :=
  splitCommaAux s.data []

/-- Lines 83-88: `core.getInput('labeled').split(',').map(l => l.trim().toLowerCase()).filter(l => l.length > 0)`. -/
def parsedLabeled (cfg : Config) : List String :=
  ((jsSplitComma cfg.labeledInput).map (fun l => jsToLower (jsTrim l))).filter
    (fun l => l.length > 0)

/-- Line 89: `core.getInput('label-operator').trim().toLocaleLowerCase()`. -/
def parsedLabelOperator (cfg : Config) : String :=
  jsToLower (jsTrim cfg.labelOperatorInput)

/-- Line 94: `(issue?.labels ?? []).map(l => l.name.toLowerCase())`. -/
def contextIssueLabels (ctx : Context) : List String :=
  ((ctx.issue.map Issue.labels).getD []).map jsToLower

/-- Lines 100-115: the label filter. `true` means the code takes one of the
three early `return`s (a skip); `false` means the run proceeds. -/
def labelFilterSkips (labelOperator : String) (labeled issueLabels : List String) : Bool :=
  if labelOperator = "and" then
    !(labeled.all (fun l => issueLabels.contains l))
  else if labelOperator = "not" then
    decide (labeled.length > 0) && issueLabels.any (fun l => labeled.contains l)
  else
    decide (labeled.length > 0) && !(issueLabels.any (fun l => labeled.contains l))

/-- Named groups of a successful match of the URL regex
`^(?:https:\/\/)?github\.com\/(?<ownerType>orgs|users)\/(?<ownerName>[^\/]+)\/projects\/(?<projectNumber>\d+)`,
with `projectNumber` already through `parseInt(_, 10)` (line 128). -/
structure UrlMatch where
  ownerType : String
  ownerName : String
  projectNumber : Nat
deriving Repr, DecidableEq

/-- Drops the literal character sequence `lit` from the front of `s`,
returning the remainder, or `none` if `s` does not start with `lit`. -/
def dropLit : List Char → List Char → Option (List Char)
  | [], s => some s
  | _ :: _, [] => none
  | p :: ps, c :: cs => if c = p then dropLit ps cs else none

/-- JS `parseInt` on a non-empty all-digit string. -/
def digitsToNat (ds : List Char) : Nat :=
  ds.foldl (fun n c => n * 10 + (c.toNat - 48)) 0

/-- Matches `<ownerName>/projects/<digits>` after the owner-kind token:
`[^\/]+` greedily takes the maximal run of non-slash characters (it can
never backtrack into a position where the following literal `/` would
match), then the literal `/projects/`, then at least one digit; the regex
has no end anchor, so trailing characters after the digits are ignored. -/
def parseTail (ownerType : String) (cs : List Char) : Option UrlMatch :=
  let owner := cs.takeWhile (fun c => c ≠ '/')
  let rest := cs.dropWhile (fun c => c ≠ '/')
  if owner.isEmpty then none
  else
    match dropLit "/projects/".data rest with
    | none => none
    | some rest2 =>
      let digits := rest2.takeWhile Char.isDigit
      if digits.isEmpty then none
      else some ⟨ownerType, String.mk owner, digitsToNat digits⟩

/-- Lines 6-7 and 119: `projectUrl.match(urlParse)`. The optional
`(?:https:\/\/)?` is deterministic (if the scheme is present, dropping it
is the only way the following literal `github.com/` can match), as is the
`orgs|users` alternation (disjoint first characters, each followed by `/`). -/
def parseProjectUrl (url : String) : Option UrlMatch :=
  let cs := url.data
  let cs1 := match dropLit "https://".data cs with
    | some r => r
    | none => cs
  match dropLit "github.com/".data cs1 with
  | none => none
  | some cs2 =>
    match dropLit "orgs/".data cs2 with
    | some rest => parseTail "orgs" rest
    | none =>
      match dropLit "users/".data cs2 with
      | some rest => parseTail "users" rest
      | none => none

/-- Lines 309-317: `mustGetOwnerTypeQuery`. The argument is optional in the
source (`ownerType?: string`); `none` models `undefined`. A `null` result
of the conditional chain makes the function throw. -/
def mustGetOwnerTypeQuery (ownerType : Option String) : Except String String :=
  let ownerTypeQuery : Option String :=
    if ownerType = some "orgs" then some "organization"
    else if ownerType = some "users" then some "user"
    else none
  match ownerTypeQuery with
  | none =>
    .error "Unsupported ownerType. Must be one of this or that"
  | some q => .ok q

/-- Line 151: `idResp[ownerTypeQuery]?.projectV2.id`. A missing key makes
the optional chain yield `undefined` (`.ok none`); a present key whose
`projectV2` is JSON null makes the unguarded `.id` access throw a
TypeError (`.error`). -/
def lookupProjectId (resp : ProjectNodeIDResponse) (ownerTypeQuery : String) : Except String (Option String) :=
  let entry := if ownerTypeQuery = "organization" then resp.organization else resp.user
  match entry with
  | none => .ok none
  | some op =>
    match op.projectV2 with
    | none => .error "TypeError: cannot read id of null"
    | some pv => .ok (some pv.id)

/-- JS `<` on strings: lexicographic comparison of the character
sequences (for the ASCII date strings compared here, code-unit and
code-point order coincide). -/
def jsLtChars : List Char → List Char → Bool
  | [], [] => false
  | [], _ :: _ => true
  | _ :: _, [] => false
  | a :: as, b :: bs => if a < b then true else if b < a then false else jsLtChars as bs

/-- JS `a > b` on strings, as on line 278. -/
def jsStrGt (a b : String) : Bool :=
  jsLtChars b.data a.data

/-- The reducer of lines 277-279: keep `previous` only when its start date
is strictly greater, so `current` wins ties. -/
def iterStep (previous current : Iteration) : Iteration :=
  if jsStrGt previous.startDate current.startDate then previous else current

/-- Lines 277-279: `iterations.reduce((previous, current) => previous.startDate > current.startDate ? previous : current)`.
JS `reduce` without an initial value throws on an empty array (`none` here)
and otherwise folds from the second element with the first as accumulator. -/
def latestIteration : List Iteration → Option Iteration
  | [] => none
  | x :: xs => some (xs.foldl iterStep x)

/-- Lines 117-307: everything after the label filter has passed. -/
def runAfterFilter (cfg : Config) (ctx : Context) (remote : Remote) : RunOutcome :=
  match parseProjectUrl cfg.projectUrl with
  | none => ⟨.failed "Invalid project URL", [], []⟩
  | some m =>
    match mustGetOwnerTypeQuery (some m.ownerType) with
    | .error e => ⟨.failed e, [], []⟩
    | .ok ownerTypeQuery =>
      let call1 := RemoteCall.getProject ownerTypeQuery (some m.ownerName) m.projectNumber
      match lookupProjectId remote.idResp ownerTypeQuery with
      | .error e => ⟨.failed e, [call1], []⟩
      | .ok projectId =>
        let contentId := ctx.issue.bind Issue.node_id
        let createCall :=
          if ctx.repoOwnerLogin = some m.ownerName then
            RemoteCall.addItemById projectId contentId
          else
            RemoteCall.addDraftIssue projectId (ctx.issue.bind Issue.html_url)
        let createdItem :=
          if ctx.repoOwnerLogin = some m.ownerName then remote.addItemId
          else remote.draftItemId
        let call3 := RemoteCall.getField projectId cfg.fieldName
        let fieldId := remote.fieldResp.id
        let fieldOption :=
          (remote.fieldResp.options.find? (fun o => o.name = cfg.fieldOptionName)).map FieldOption.id
        let call4 := RemoteCall.updateSingleSelect projectId createdItem fieldId fieldOption
        let call5 := RemoteCall.getIteration projectId
        let iterationFieldId := remote.iterationField.id
        match latestIteration remote.iterationField.iterations with
        | none =>
          ⟨.failed "TypeError: reduce of empty array with no initial value",
            [call1, createCall, call3, call4, call5],
            [createdItem, remote.updateSelectItemId]⟩
        | some it =>
          ⟨.done,
            [call1, createCall, call3, call4, call5,
              RemoteCall.updateIteration projectId createdItem iterationFieldId it.id],
            [createdItem, remote.updateSelectItemId, remote.updateIterationItemId]⟩

/-- Lines 77-307: the whole run. The label filter (lines 100-115) gates
everything, returning normally on a skip before the URL is even parsed. -/
def addToProject (cfg : Config) (ctx : Context) (remote : Remote) : RunOutcome :=
  if labelFilterSkips (parsedLabelOperator cfg) (parsedLabeled cfg) (contextIssueLabels ctx) then
    ⟨.skipped, [], []⟩
  else
    runAfterFilter cfg ctx remote

/-- Is this call one of the two item-creation mutations? -/
def isCreateCall : RemoteCall → Bool
  | .addItemById _ _ => true
  | .addDraftIssue _ _ => true
  | _ => false

/-- Is this call the update-iteration-value mutation? -/
def isIterationUpdate : RemoteCall → Bool
  | .updateIteration _ _ _ _ => true
  | _ => false

/-- The embedded JS string comparison agrees with the lexicographic strict
order on character lists. -/
theorem jsLtChars_iff (s t : List Char) : jsLtChars s t = true ↔ s < t := by
  induction s generalizing t with
  | nil =>
    cases t with
    | nil =>
      constructor
      · intro h; simp [jsLtChars] at h
      · intro h; cases h
    | cons b bs =>
      constructor
      · intro _; exact List.Lex.nil
      · intro _; rfl
  | cons a as ih =>
    cases t with
    | nil =>
      constructor
      · intro h; simp [jsLtChars] at h
      · intro h; cases h
    | cons b bs =>
      show (if a < b then true else if b < a then false else jsLtChars as bs) = true ↔ _
      rcases lt_trichotomy a b with h | h | h
      · rw [if_pos h]
        simp only [true_iff]
        exact List.Lex.rel h
      · subst h
        rw [if_neg (lt_irrefl a), if_neg (lt_irrefl a), ih]
        constructor
        · intro hl; exact List.Lex.cons hl
        · intro hl
          cases hl with
          | cons h2 => exact h2
          | rel h2 => exact absurd h2 (lt_irrefl a)
      · rw [if_neg (asymm h), if_pos h]
        constructor
        · intro hf; cases hf
        · intro hl
          cases hl with
          | cons h2 => exact absurd h (lt_irrefl _)
          | rel h2 => exact absurd h2 (asymm h)

/-- `jsStrGt a b = true` means `b`'s characters are lexicographically
below `a`'s. -/
theorem jsStrGt_iff (a b : String) : jsStrGt a b = true ↔ b.data < a.data :=
  jsLtChars_iff b.data a.data

/-- `jsStrGt a b = false` means `a`'s characters are at most `b`'s. -/
theorem jsStrGt_eq_false_iff (a b : String) : jsStrGt a b = false ↔ a.data ≤ b.data := by
  constructor
  · intro h
    by_contra hc
    rw [not_le, ← jsLtChars_iff] at hc
    rw [jsStrGt] at h
    rw [h] at hc
    cases hc
  · intro h
    cases hb : jsStrGt a b with
    | false => rfl
    | true =>
      rw [jsStrGt_iff] at hb
      exact absurd h (not_le.mpr hb)

/-- Characterization of the reduce of lines 277-279: the result occurs in
the list, every element's start date is at most the result's, and every
element strictly after the result's occurrence has a strictly smaller
start date (so ties are resolved to the latest-encountered maximum). -/
theorem foldl_iterStep_spec (xs : List Iteration) : ∀ x : Iteration,
    ∃ l₁ l₂, x :: xs = l₁ ++ (xs.foldl iterStep x) :: l₂ ∧
      (∀ y ∈ x :: xs, y.startDate.data ≤ (xs.foldl iterStep x).startDate.data) ∧
      (∀ y ∈ l₂, y.startDate.data < (xs.foldl iterStep x).startDate.data) := by
  induction xs with
  | nil =>
    intro x
    exact ⟨[], [], rfl, by simp, by simp⟩
  | cons c cs ih =>
    intro x
    rw [List.foldl_cons]
    rcases ih (iterStep x c) with ⟨l₁, l₂, hsplit, hmax, hafter⟩
    by_cases hxc : jsStrGt x.startDate c.startDate = true
    · have hstep : iterStep x c = x := by rw [iterStep, if_pos hxc]
      rw [hstep] at hsplit hmax hafter ⊢
      have hclt : c.startDate.data < x.startDate.data := (jsStrGt_iff _ _).mp hxc
      cases l₁ with
      | nil =>
        have hx : cs.foldl iterStep x = x := (List.cons.inj hsplit.symm).1
        have hl₂ : cs = l₂ := (List.cons.inj hsplit.symm).2.symm
        refine ⟨[], c :: cs, by rw [hx]; rfl, ?_, ?_⟩
        · intro y hy
          rcases List.mem_cons.mp hy with rfl | hy
          · exact hmax y (List.mem_cons_self _ _)
          · rcases List.mem_cons.mp hy with rfl | hy
            · rw [hx]; exact le_of_lt hclt
            · exact hmax y (List.mem_cons_of_mem _ hy)
        · intro y hy
          rcases List.mem_cons.mp hy with rfl | hy
          · rw [hx]; exact hclt
          · rw [← hl₂] at hafter
            exact hafter y hy
      | cons a t =>
        have hcs : cs = t ++ cs.foldl iterStep x :: l₂ := (List.cons.inj hsplit).2
        refine ⟨x :: c :: t, l₂, ?_, ?_, hafter⟩
        · show x :: c :: cs = x :: c :: (t ++ cs.foldl iterStep x :: l₂)
          rw [← hcs]
        · intro y hy
          rcases List.mem_cons.mp hy with rfl | hy
          · exact hmax y (List.mem_cons_self _ _)
          · rcases List.mem_cons.mp hy with rfl | hy
            · exact le_of_lt (lt_of_lt_of_le hclt (hmax x (List.mem_cons_self _ _)))
            · exact hmax y (List.mem_cons_of_mem _ hy)
    · have hxc2 : jsStrGt x.startDate c.startDate = false := by
        cases h : jsStrGt x.startDate c.startDate with
        | false => rfl
        | true => exact absurd h hxc
      have hstep : iterStep x c = c := by rw [iterStep, hxc2]; rfl
      rw [hstep] at hsplit hmax hafter ⊢
      have hxle : x.startDate.data ≤ c.startDate.data := (jsStrGt_eq_false_iff _ _).mp hxc2
      refine ⟨x :: l₁, l₂, ?_, ?_, hafter⟩
      · show x :: c :: cs = x :: (l₁ ++ cs.foldl iterStep c :: l₂)
        rw [← hsplit]
      · intro y hy
        rcases List.mem_cons.mp hy with rfl | hy
        · exact le_trans hxle (hmax c (List.mem_cons_self _ _))
        · exact hmax y hy

/-- C2: with operator `not`, the run proceeds past the filter iff the
configured set is empty or shares no label with the content labels; a
non-match is a skip — the run returns normally with no remote call. -/
theorem claim2_label_not :
    (∀ labeled issueLabels : List String,
        labelFilterSkips "not" labeled issueLabels = false ↔
          (labeled = [] ∨ ∀ l ∈ labeled, l ∉ issueLabels))
      ∧ ∀ cfg ctx remote,
          labelFilterSkips (parsedLabelOperator cfg) (parsedLabeled cfg)
              (contextIssueLabels ctx) = true →
            addToProject cfg ctx remote = ⟨.skipped, [], []⟩ := by
  constructor
  · intro labeled issueLabels
    have h1 : ("not" : String) ≠ "and" := by decide
    rw [labelFilterSkips, if_neg h1, if_pos rfl]
    simp only [Bool.and_eq_false_iff, decide_eq_false_iff_not, not_lt, Nat.le_zero,
      List.length_eq_zero, List.any_eq_false, List.contains, List.elem_eq_mem, decide_eq_true_eq]
    constructor
    · rintro (h | h)
      · exact Or.inl h
      · exact Or.inr (fun l hl hli => h l hli hl)
    · rintro (h | h)
      · exact Or.inl h
      · exact Or.inr (fun l hl hli => h l hli hl)
  · intro cfg ctx remote h
    rw [addToProject, if_pos h]

/-- C2 witness: at operator `not` with disjoint label sets the filter
passes, and a concrete skipping run returns `skipped` with no calls. -/
theorem claim2_label_not_witness :
    labelFilterSkips "not" ["bug"] ["doc"] = false ∧
      addToProject ⟨"u", "f", "o", "bug", "not"⟩
          ⟨some ⟨["bug"], none, none⟩, none⟩
          ⟨⟨none, none⟩, "", "", ⟨"", []⟩, "", ⟨"", []⟩, ""⟩ = ⟨.skipped, [], []⟩ :=
  ⟨(claim2_label_not.1 ["bug"] ["doc"]).mpr (Or.inr (by decide)),
    claim2_label_not.2 _ _ _ (by decide)⟩

/-- C3: with operator `and`, the run proceeds past the filter iff every
configured label is among the content labels (so an empty configuration
always proceeds); a non-match is a skip — a normal return with no remote
call. -/
theorem claim3_label_and :
    (∀ labeled issueLabels : List String,
        labelFilterSkips "and" labeled issueLabels = false ↔
          ∀ l ∈ labeled, l ∈ issueLabels)
      ∧ ∀ cfg ctx remote,
          labelFilterSkips (parsedLabelOperator cfg) (parsedLabeled cfg)
              (contextIssueLabels ctx) = true →
            addToProject cfg ctx remote = ⟨.skipped, [], []⟩ := by
  constructor
  · intro labeled issueLabels
    rw [labelFilterSkips, if_pos rfl]
    simp [List.contains]
  · intro cfg ctx remote h
    rw [addToProject, if_pos h]

/-- C3 witness: at operator `and` with the configured label present the
filter passes, and a concrete skipping run returns `skipped` with no
calls. -/
theorem claim3_label_and_witness :
    labelFilterSkips "and" ["bug"] ["bug", "doc"] = false ∧
      addToProject ⟨"u", "f", "o", "bug,feature", "and"⟩
          ⟨some ⟨["bug"], none, none⟩, none⟩
          ⟨⟨none, none⟩, "", "", ⟨"", []⟩, "", ⟨"", []⟩, ""⟩ = ⟨.skipped, [], []⟩ :=
  ⟨(claim3_label_and.1 ["bug"] ["bug", "doc"]).mpr (by decide),
    claim3_label_and.2 _ _ _ (by decide)⟩

/-- C4: with any operator other than `and` and `not` (default inclusive-or
semantics), the run proceeds past the filter iff the configured set is
empty or at least one configured label is among the content labels. -/
theorem claim4_label_default (op : String) (labeled issueLabels : List String)
    (h1 : op ≠ "and") (h2 : op ≠ "not") :
    labelFilterSkips op labeled issueLabels = false ↔
      (labeled = [] ∨ ∃ l ∈ labeled, l ∈ issueLabels) := by
  rw [labelFilterSkips, if_neg h1, if_neg h2]
  simp [List.contains, List.length_eq_zero]
  constructor
  · intro h
    by_cases hl : labeled = []
    · exact Or.inl hl
    · rcases h (List.length_pos.mpr hl) with ⟨x, hxi, hxl⟩
      exact Or.inr ⟨x, hxl, hxi⟩
  · rintro (rfl | ⟨l, hll, hli⟩) hp
    · simp at hp
    · exact ⟨l, hli, hll⟩

/-- C4 witness: at the empty operator with an empty configured set the
filter passes. -/
theorem claim4_label_default_witness :
    labelFilterSkips "" [] ["doc"] = false :=
  (claim4_label_default "" [] ["doc"] (by decide) (by decide)).mpr (Or.inl rfl)

/-- C8: `mustGetOwnerTypeQuery` maps `orgs` to `organization` and `users`
to `user`, and throws on every other input, `undefined` included. -/
theorem claim8_owner_type_query :
    mustGetOwnerTypeQuery (some "orgs") = .ok "organization" ∧
      mustGetOwnerTypeQuery (some "users") = .ok "user" ∧
      ∀ o : Option String, o ≠ some "orgs" → o ≠ some "users" →
        ∃ e, mustGetOwnerTypeQuery o = .error e := by
  refine ⟨rfl, rfl, ?_⟩
  intro o h1 h2
  rw [mustGetOwnerTypeQuery]
  simp only [if_neg h1, if_neg h2]
  exact ⟨_, rfl⟩

/-- C8 witness: the two mapped tokens, plus the error at `undefined`. -/
theorem claim8_owner_type_query_witness :
    mustGetOwnerTypeQuery (some "orgs") = .ok "organization" ∧
      ∃ e, mustGetOwnerTypeQuery none = .error e :=
  ⟨claim8_owner_type_query.1, claim8_owner_type_query.2.2 none (by decide) (by decide)⟩

/-- C10: whenever the label filter decides to skip, the function returns
normally with no error and no remote call — for every configuration,
including one whose project URL would fail to parse, since the filter
runs before URL validation. -/
theorem claim10_skip_before_url : ∀ cfg ctx remote,
    labelFilterSkips (parsedLabelOperator cfg) (parsedLabeled cfg)
        (contextIssueLabels ctx) = true →
      addToProject cfg ctx remote = ⟨.skipped, [], []⟩ := by
  intro cfg ctx remote h
  rw [addToProject, if_pos h]

/-- C10 witness: a configuration with an unparseable project URL whose
filter skips still ends in a normal `skipped` outcome with no calls. -/
theorem claim10_skip_before_url_witness :
    parseProjectUrl "not a url" = none ∧
      addToProject ⟨"not a url", "f", "o", "bug", "not"⟩
          ⟨some ⟨["bug"], none, none⟩, none⟩
          ⟨⟨none, none⟩, "", "", ⟨"", []⟩, "", ⟨"", []⟩, ""⟩ = ⟨.skipped, [], []⟩ :=
  ⟨by decide, claim10_skip_before_url _ _ _ (by decide)⟩

/-- C1 counterexample: a run can pass the label filter and still invoke
neither item-creation mutation — an unparseable project URL throws first,
so the run ends with no calls at all. -/
theorem claim1_counterexample :
    labelFilterSkips (parsedLabelOperator ⟨"nota url", "f", "o", "", ""⟩)
        (parsedLabeled ⟨"nota url", "f", "o", "", ""⟩) (contextIssueLabels ⟨none, none⟩) = false ∧
      addToProject ⟨"nota url", "f", "o", "", ""⟩ ⟨none, none⟩
          ⟨⟨none, none⟩, "", "", ⟨"", []⟩, "", ⟨"", []⟩, ""⟩ =
        ⟨.failed "Invalid project URL", [], []⟩ := by
  decide

/-- C1 (amended): for every run that passes the label filter and reaches
the item-creation step (the URL parses, the owner-type token resolves,
and project-id extraction does not throw), exactly one of the two
item-creation mutations is invoked — attach-existing-content with
(projectId, contentId) when the content owner login equals the parsed
project owner name, create-draft-item with (projectId, title = content
URL) otherwise; never both, never neither. -/
theorem claim1_item_creation (cfg : Config) (ctx : Context) (remote : Remote)
    (m : UrlMatch) (q : String) (pid : Option String)
    (hskip : labelFilterSkips (parsedLabelOperator cfg) (parsedLabeled cfg)
        (contextIssueLabels ctx) = false)
    (hm : parseProjectUrl cfg.projectUrl = some m)
    (hq : mustGetOwnerTypeQuery (some m.ownerType) = .ok q)
    (hpid : lookupProjectId remote.idResp q = .ok pid) :
    (addToProject cfg ctx remote).calls.filter isCreateCall =
      [if ctx.repoOwnerLogin = some m.ownerName
        then RemoteCall.addItemById pid (ctx.issue.bind Issue.node_id)
        else RemoteCall.addDraftIssue pid (ctx.issue.bind Issue.html_url)] := by
  rw [addToProject, if_neg (by simp [hskip])]
  rw [runAfterFilter, hm]
  simp only [hq, hpid]
  by_cases hown : ctx.repoOwnerLogin = some m.ownerName
  · cases hit : latestIteration remote.iterationField.iterations with
    | none => simp [hown, hit, isCreateCall, List.filter]
    | some it => simp [hown, hit, isCreateCall, List.filter]
  · cases hit : latestIteration remote.iterationField.iterations with
    | none => simp [hown, hit, isCreateCall, List.filter]
    | some it => simp [hown, hit, isCreateCall, List.filter]

/-- C1 witness: a same-owner run issues exactly the attach-existing-content
mutation. -/
theorem claim1_item_creation_witness :
    (addToProject ⟨"https://github.com/orgs/acme/projects/5", "f", "o", "", ""⟩
        ⟨some ⟨[], some "NODE", some "URL"⟩, some "acme"⟩
        ⟨⟨some ⟨some ⟨"PID"⟩⟩, none⟩, "I1", "D1", ⟨"FID", []⟩, "I2",
          ⟨"ITF", [⟨"2024-01-01", "ita"⟩]⟩, "I3"⟩).calls.filter isCreateCall =
      [RemoteCall.addItemById (some "PID") (some "NODE")] :=
  claim1_item_creation _ _ _ ⟨"orgs", "acme", 5⟩ "organization" (some "PID")
    (by decide) (by decide) rfl rfl

/-- C5 counterexample: when two iterations share the maximal start date,
the reduction selects the one encountered last (`b`), not the first
(`a`) as the claim states. -/
theorem claim5_counterexample :
    (latestIteration [⟨"2024-03-01", "a"⟩, ⟨"2024-03-01", "b"⟩]).map Iteration.id = some "b" ∧
      (latestIteration [⟨"2024-03-01", "a"⟩, ⟨"2024-03-01", "b"⟩]).map Iteration.id ≠ some "a" := by
  decide

/-- C5 (amended): for every non-empty iteration list, the selected
iteration attains the maximum start date under lexicographic string
comparison, and when several share that maximal start date the one
encountered last during the reduction is selected: the result occurs at a
position after which every start date is strictly smaller. The claim's
concrete two-element example still yields `b`. -/
theorem claim5_latest_iteration (x : Iteration) (xs : List Iteration) :
    ∃ r l₁ l₂, latestIteration (x :: xs) = some r ∧
      x :: xs = l₁ ++ r :: l₂ ∧
      (∀ y ∈ x :: xs, y.startDate.data ≤ r.startDate.data) ∧
      (∀ y ∈ l₂, y.startDate.data < r.startDate.data) ∧
      (latestIteration [⟨"2024-01-01", "a"⟩, ⟨"2024-02-01", "b"⟩]).map Iteration.id = some "b" := by
  rcases foldl_iterStep_spec xs x with ⟨l₁, l₂, hs, hmax, hafter⟩
  exact ⟨_, l₁, l₂, rfl, hs, hmax, hafter, by decide⟩

/-- C6: when the run reaches field assignment and no fetched option name
equals the configured option name (case-sensitively), the
update-single-select mutation is still invoked, with an undefined option
identifier, instead of the run failing fast. -/
theorem claim6_option_not_found (cfg : Config) (ctx : Context) (remote : Remote)
    (m : UrlMatch) (q : String) (pid : Option String)
    (hskip : labelFilterSkips (parsedLabelOperator cfg) (parsedLabeled cfg)
        (contextIssueLabels ctx) = false)
    (hm : parseProjectUrl cfg.projectUrl = some m)
    (hq : mustGetOwnerTypeQuery (some m.ownerType) = .ok q)
    (hpid : lookupProjectId remote.idResp q = .ok pid)
    (hopt : remote.fieldResp.options.find? (fun o => o.name = cfg.fieldOptionName) = none) :
    ∃ item, RemoteCall.updateSingleSelect pid item remote.fieldResp.id none ∈
      (addToProject cfg ctx remote).calls := by
  rw [addToProject, if_neg (by simp [hskip])]
  rw [runAfterFilter, hm]
  simp only [hq, hpid]
  by_cases hown : ctx.repoOwnerLogin = some m.ownerName
  · cases hit : latestIteration remote.iterationField.iterations with
    | none => exact ⟨remote.addItemId, by simp [hown, hit, hopt]⟩
    | some it => exact ⟨remote.addItemId, by simp [hown, hit, hopt]⟩
  · cases hit : latestIteration remote.iterationField.iterations with
    | none => exact ⟨remote.draftItemId, by simp [hown, hit, hopt]⟩
    | some it => exact ⟨remote.draftItemId, by simp [hown, hit, hopt]⟩

/-- C6 witness: a concrete run whose single option is named differently
from the configured option still issues the update-single-select
mutation with an undefined option id. -/
theorem claim6_option_not_found_witness :
    ∃ item, RemoteCall.updateSingleSelect (some "PID") item "FID" none ∈
      (addToProject ⟨"https://github.com/orgs/acme/projects/5", "Status", "Todo", "", ""⟩
        ⟨some ⟨[], some "NODE", some "URL"⟩, some "acme"⟩
        ⟨⟨some ⟨some ⟨"PID"⟩⟩, none⟩, "I1", "D1", ⟨"FID", [⟨"O1", "Done"⟩]⟩, "I2",
          ⟨"ITF", [⟨"2024-01-01", "ita"⟩]⟩, "I3"⟩).calls :=
  claim6_option_not_found _ _ _ ⟨"orgs", "acme", 5⟩ "organization" (some "PID")
    (by decide) (by decide) rfl rfl rfl

/-- C7: when the run reaches the iteration step and the iteration field's
configured iterations list is empty, the run fails (the reduction over
the empty list throws) and the update-iteration-value mutation is never
invoked. -/
theorem claim7_empty_iterations (cfg : Config) (ctx : Context) (remote : Remote)
    (m : UrlMatch) (q : String) (pid : Option String)
    (hskip : labelFilterSkips (parsedLabelOperator cfg) (parsedLabeled cfg)
        (contextIssueLabels ctx) = false)
    (hm : parseProjectUrl cfg.projectUrl = some m)
    (hq : mustGetOwnerTypeQuery (some m.ownerType) = .ok q)
    (hpid : lookupProjectId remote.idResp q = .ok pid)
    (hiter : remote.iterationField.iterations = []) :
    (∃ e, (addToProject cfg ctx remote).result = .failed e) ∧
      (addToProject cfg ctx remote).calls.filter isIterationUpdate = [] := by
  rw [addToProject, if_neg (by simp [hskip])]
  rw [runAfterFilter, hm]
  simp only [hq, hpid, hiter]
  by_cases hown : ctx.repoOwnerLogin = some m.ownerName
  · refine ⟨⟨"TypeError: reduce of empty array with no initial value", ?_⟩, ?_⟩ <;>
      simp [hown, latestIteration, isIterationUpdate, List.filter]
  · refine ⟨⟨"TypeError: reduce of empty array with no initial value", ?_⟩, ?_⟩ <;>
      simp [hown, latestIteration, isIterationUpdate, List.filter]

/-- C7 witness: a concrete run with an empty iterations list fails and
issues no update-iteration mutation. -/
theorem claim7_empty_iterations_witness :
    (∃ e, (addToProject ⟨"https://github.com/orgs/acme/projects/5", "f", "o", "", ""⟩
        ⟨some ⟨[], some "NODE", some "URL"⟩, some "acme"⟩
        ⟨⟨some ⟨some ⟨"PID"⟩⟩, none⟩, "I1", "D1", ⟨"FID", []⟩, "I2",
          ⟨"ITF", []⟩, "I3"⟩).result = .failed e) ∧
      (addToProject ⟨"https://github.com/orgs/acme/projects/5", "f", "o", "", ""⟩
        ⟨some ⟨[], some "NODE", some "URL"⟩, some "acme"⟩
        ⟨⟨some ⟨some ⟨"PID"⟩⟩, none⟩, "I1", "D1", ⟨"FID", []⟩, "I2",
          ⟨"ITF", []⟩, "I3"⟩).calls.filter isIterationUpdate = [] :=
  claim7_empty_iterations _ _ _ ⟨"orgs", "acme", 5⟩ "organization" (some "PID")
    (by decide) (by decide) rfl rfl rfl

/-- C9 counterexample: a project-id lookup response in which the owner
kind key (`organization`) is entirely missing does not fail the run —
optional chaining yields an undefined project id and the whole run
completes, item-creation mutation included. -/
theorem claim9_counterexample :
    addToProject ⟨"https://github.com/orgs/acme/projects/5", "f", "o", "", ""⟩
        ⟨some ⟨[], some "NODE", some "URL"⟩, some "acme"⟩
        ⟨⟨none, none⟩, "I1", "D1", ⟨"FID", []⟩, "I2", ⟨"ITF", [⟨"2024-01-01", "ita"⟩]⟩, "I3"⟩ =
      ⟨.done,
        [.getProject "organization" (some "acme") 5,
          .addItemById none (some "NODE"),
          .getField none "f",
          .updateSingleSelect none "I1" "FID" none,
          .getIteration none,
          .updateIteration none "I1" "ITF" "ita"],
        ["I1", "I2", "I3"]⟩ := by
  decide

/-- C9 (amended): if the owner kind key is present in the lookup response
but holds a null `projectV2`, the run fails before any item-creation
mutation; if the key itself is missing, optional chaining yields an
undefined project id and the run proceeds to invoke exactly one
item-creation mutation with it. -/
theorem claim9_project_lookup (cfg : Config) (ctx : Context) (remote : Remote)
    (m : UrlMatch) (q : String)
    (hskip : labelFilterSkips (parsedLabelOperator cfg) (parsedLabeled cfg)
        (contextIssueLabels ctx) = false)
    (hm : parseProjectUrl cfg.projectUrl = some m)
    (hq : mustGetOwnerTypeQuery (some m.ownerType) = .ok q) :
    (∀ e, lookupProjectId remote.idResp q = .error e →
        addToProject cfg ctx remote =
          ⟨.failed e, [RemoteCall.getProject q (some m.ownerName) m.projectNumber], []⟩)
      ∧ (lookupProjectId remote.idResp q = .ok none →
          (addToProject cfg ctx remote).calls.filter isCreateCall =
            [if ctx.repoOwnerLogin = some m.ownerName
              then RemoteCall.addItemById none (ctx.issue.bind Issue.node_id)
              else RemoteCall.addDraftIssue none (ctx.issue.bind Issue.html_url)]) := by
  constructor
  · intro e he
    rw [addToProject, if_neg (by simp [hskip])]
    rw [runAfterFilter, hm]
    simp only [hq, he]
  · intro hok
    rw [addToProject, if_neg (by simp [hskip])]
    rw [runAfterFilter, hm]
    simp only [hq, hok]
    by_cases hown : ctx.repoOwnerLogin = some m.ownerName
    · cases hit : latestIteration remote.iterationField.iterations with
      | none => simp [hown, hit, isCreateCall, List.filter]
      | some it => simp [hown, hit, isCreateCall, List.filter]
    · cases hit : latestIteration remote.iterationField.iterations with
      | none => simp [hown, hit, isCreateCall, List.filter]
      | some it => simp [hown, hit, isCreateCall, List.filter]

/-- C9 witness: a response whose `organization` key is present with a null
`projectV2` makes the run fail right after the lookup, before any
item-creation mutation. -/
theorem claim9_project_lookup_witness :
    addToProject ⟨"https://github.com/orgs/acme/projects/5", "f", "o", "", ""⟩
        ⟨some ⟨[], some "NODE", some "URL"⟩, some "acme"⟩
        ⟨⟨some ⟨none⟩, none⟩, "I1", "D1", ⟨"FID", []⟩, "I2", ⟨"ITF", []⟩, "I3"⟩ =
      ⟨.failed "TypeError: cannot read id of null",
        [RemoteCall.getProject "organization" (some "acme") 5], []⟩ :=
  (claim9_project_lookup _ _ _ ⟨"orgs", "acme", 5⟩ "organization"
    (by decide) (by decide) rfl).1 _ rfl

end AddToProject
